import Mathlib

/-!
Verification of the LuaPure server (`src/server.js`): a shallow embedding of
its request handlers (file enumeration, file-content fetching, the Groq
conversion proxy and the health probe) together with theorems about the
behaviour of those handlers.
-/

namespace LuaPure

/-! ## JavaScript string primitives -/

/-- The character set removed by the JavaScript `String.prototype.trim`
(ECMAScript WhiteSpace plus LineTerminator code points). -/
def jsWs (c : Char) : Bool :=
  c == ' ' || c == '\t' || c == '\n' || c == '\r' || c == '\x0b' || c == '\x0c' ||
  c == ' ' || c == ' ' || c == ' ' || c == ' ' || c == ' ' ||
  c == ' ' || c == ' ' || c == ' ' || c == ' ' || c == ' ' ||
  c == ' ' || c == ' ' || c == ' ' || c == ' ' || c == ' ' ||
  c == ' ' || c == ' ' || c == '　' || c == '﻿'

/-- Model of `s.trim()` on the character list of `s`. -/
def trimChars (cs : List Char) : List Char :=
  ((cs.dropWhile jsWs).reverse.dropWhile jsWs).reverse

/-- Case-insensitive prefix test (how a `/i` regex literal matches): each
pattern character is compared with the lower-cased input character. The
pattern itself is given lower-cased. -/
def ciHasPrefix : List Char → List Char → Bool
  | [], _ => true
  | _ :: _, [] => false
  | p :: ps, c :: cs => c.toLower == p && ciHasPrefix ps cs

/-- Exact string prefix test, modelling `fullPath.startsWith(dir)`. -/
def strStartsWith (s p : String) : Bool := p.data.isPrefixOf s.data

/-! ## Fence stripping (line 142 of `server.js`)

`luaCode.replace(/^```lua\n?/i, "").replace(/^```\n?/i, "").replace(/\n?```$/i, "").trim()`
applied to `response.data.choices[0].message.content.trim()` (line 139). -/

/-- Anchored test for the regex `/^```lua/i` (the backtick characters are
unaffected by case folding, so case-insensitive matching is exact on them). -/
def matchesTaggedFence (cs : List Char) : Bool :=
  ciHasPrefix ['`', '`', '`', 'l', 'u', 'a'] cs

/-- Anchored test for the regex `/^```/` (case-insensitivity is vacuous). -/
def matchesBareFence (cs : List Char) : Bool :=
  ciHasPrefix ['`', '`', '`'] cs

/-- Drop one optional leading newline, modelling a greedy `\n?`. -/
def dropOptNl : List Char → List Char
  | '\n' :: rest => rest
  | cs => cs

/-- `replace(/^```lua\n?/i, "")`: remove one anchored tagged fence marker. -/
def stripLeadTagged (cs : List Char) : List Char :=
  if matchesTaggedFence cs then dropOptNl (cs.drop 6) else cs

/-- `replace(/^```\n?/i, "")`: remove one anchored bare fence marker. -/
def stripLeadBare (cs : List Char) : List Char :=
  if matchesBareFence cs then dropOptNl (cs.drop 3) else cs

/-- `replace(/\n?```$/i, "")`: remove one trailing fence marker together
with an immediately preceding newline when present. -/
def stripTrailFence (cs : List Char) : List Char :=
  if matchesBareFence cs.reverse then (dropOptNl (cs.reverse.drop 3)).reverse else cs

/-- The complete post-processing of the completion text: trim, strip one
tagged leading fence, one bare leading fence, one trailing fence, trim. -/
def sanitizeChars (cs : List Char) : List Char :=
  trimChars (stripTrailFence (stripLeadBare (stripLeadTagged (trimChars cs))))

/-- String-level wrapper of `sanitizeChars`, the value stored in `luaCode`
after lines 139 and 142 of `server.js`. -/
def sanitizeLua (raw : String) : String := String.mk (sanitizeChars raw.data)

-- sanity checks of the embedding on concrete values
example : sanitizeLua "```lua\nprint(1)\n```" = "print(1)" := by decide
example : sanitizeLua "```lua\n```\nprint(1)\n```" = "print(1)" := by decide
example (rest : List Char) : matchesBareFence ('\n' :: rest) = false := rfl
example (rest : List Char) : matchesTaggedFence ('\n' :: rest) = false := rfl

/-! ## JavaScript truthiness helpers -/

/-- Truthiness of an optional string value (`undefined` or a string):
`undefined` and the empty string are falsy. -/
def jsTruthy : Option String → Bool
  | none => false
  | some s => !(s == "")

/-- The expression `v || d` for an optional string `v` and default `d`. -/
def jsOrDefault (o : Option String) (d : String) : String :=
  match o with
  | some s => if s == "" then d else s
  | none => d

/-- Template-literal interpolation of an optional string: `undefined`
interpolates as the text "undefined". -/
def jsInterpOpt : Option String → String
  | some s => s
  | none => "undefined"

/-- The expression `a || b` where `a` is an optional string and `b` a
string: falsy (`undefined` or empty) `a` selects `b`. -/
def truthyOr (a : Option String) (b : String) : String :=
  match a with
  | some s => if s == "" then b else s
  | none => b

/-! ## Node `path.join` for an absolute base (POSIX) -/

/-- Split a character list on the separator `/`. -/
def splitSlashAux : List Char → List Char → List String
  | [], acc => [String.mk acc.reverse]
  | '/' :: rest, acc => String.mk acc.reverse :: splitSlashAux rest []
  | c :: rest, acc => splitSlashAux rest (c :: acc)

/-- Join path segments with the separator `/`. -/
def joinSlash : List String → String
  | [] => ""
  | [s] => s
  | s :: rest => s ++ "/" ++ joinSlash rest

/-- Test whether the character list ends with `/`. -/
def endsSlash (cs : List Char) : Bool :=
  match cs.reverse with
  | '/' :: _ => true
  | _ => false

/-- Model of `path.join(base, p)` (line 71 of `server.js`) for an absolute
POSIX `base`: concatenate with a separator and normalize, resolving `.` and
`..` segments, collapsing repeated separators, dropping `..` past the root,
and preserving a trailing separator. -/
def pathJoin (base p : String) : String :=
  let joined := base ++ "/" ++ p
  let segs := splitSlashAux joined.data []
  let stack := segs.foldl
    (fun st seg =>
      if seg == "" || seg == "." then st
      else if seg == ".." then st.tail
      else seg :: st) []
  let core := "/" ++ joinSlash stack.reverse
  if endsSlash joined.data && !(core == "/") then core ++ "/" else core

-- sanity checks against the documented Node path normalization
example : pathJoin "/srv/app" "../app2/secret.txt" = "/srv/app2/secret.txt" := by decide
example : pathJoin "/srv/app" "../../etc/passwd" = "/etc/passwd" := by decide
example : pathJoin "/srv/app" "a/./b//c" = "/srv/app/a/b/c" := by decide
example : pathJoin "/srv/app" "../../../../x" = "/x" := by decide
example : pathJoin "/srv/app" "d/" = "/srv/app/d/" := by decide

/-- Modelled from the spec: the resolved absolute location lies within the
service root when it is the root itself or extends it below a path
separator. The spec phrases the mandatory gate as rejecting every resolved
location that does not lie within the service root. -/
def withinRoot (root p : String) : Bool :=
  p == root || strStartsWith p (root ++ "/")

/-! ## Data model -/

/-- A file entry produced by the local enumerator: root-relative path with
forward-slash separators, and size in bytes. -/
structure FileEntry where
  path : String
  size : Nat
deriving DecidableEq, Repr

/-- A file entry produced by the remote enumerator (adds the content hash). -/
structure RemoteFileEntry where
  path : String
  size : Nat
  sha : String
deriving DecidableEq, Repr

/-- One item of the hosting API recursive tree listing. -/
structure GitTreeItem where
  path : String
  size : Nat
  type : String
  sha : String
deriving DecidableEq, Repr

/-- A JSON response body of one of the API handlers. -/
inductive Body where
  | error (msg : String)
  | fileContent (content : String) (path : String)
  | localFiles (files : List FileEntry) (total : Nat)
  | remoteFiles (files : List RemoteFileEntry) (total : Nat)
  | converted (convertedCode : String) (filePath : Option String)
  | health (status : String) (groqConfigured : Bool)
deriving DecidableEq

/-- An HTTP response: status code plus JSON body. -/
structure HttpResponse where
  status : Nat
  body : Body
deriving DecidableEq

/-! ## Tree enumerator (lines 19 to 61 of `server.js`) -/

mutual

/-- A directory tree node: a directory holds its `readdirSync` listing in
order, each entry a name with its node. -/
inductive FsTree where
  | file (size : Nat) : FsTree
  | dir (entries : FsEntries) : FsTree

inductive FsEntries where
  | nil : FsEntries
  | cons (name : String) (t : FsTree) (rest : FsEntries) : FsEntries

end

/-- Directories skipped by the walk (line 26). -/
def skipDirs : List String := ["node_modules", ".git", "public", ".vscode", ".github"]

/-- File names skipped by the walk (line 33). -/
def skipFiles : List String := [".env", ".env.example", "package-lock.json", ".gitignore", ".DS_Store"]

/-- The root-relative path of a child, as produced by
`path.relative(baseDir, path.join(dirPath, file))` with separators
normalized to `/`. -/
def childPath (pre name : String) : String :=
  if pre == "" then name else pre ++ "/" ++ name

/-- Model of `getAllFiles`: walk the listing depth-first; skip excluded
directories before descending; emit a file unless its name starts with `.`
or is in the excluded file-name set. `pre` is the root-relative path of the
directory being walked (empty at the root). -/
def getAllFiles (pre : String) : FsEntries → List FileEntry
  | FsEntries.nil => []
  | FsEntries.cons name (FsTree.dir ch) rest =>
      (if skipDirs.contains name then [] else getAllFiles (childPath pre name) ch)
        ++ getAllFiles pre rest
  | FsEntries.cons name (FsTree.file sz) rest =>
      (if !(strStartsWith name ".") && !(skipFiles.contains name) then
        [⟨childPath pre name, sz⟩] else [])
        ++ getAllFiles pre rest

/-- The list returned by the local `/api/repo-files` handler (lines 49 to
61): the walk output filtered to sizes strictly below 500000. -/
def localRepoFiles (t : FsEntries) : List FileEntry :=
  (getAllFiles "" t).filter (fun f => f.size < 500000)

/-- The list returned by the remote `/api/repo-files` handler (lines 196 to
203): tree items of type "file" with size strictly below 500000, projected
to path, size and sha. -/
def remoteRepoFiles (tree : List GitTreeItem) : List RemoteFileEntry :=
  (((tree.filter (fun i => i.type == "file")).filter (fun i => i.size < 500000)).map
    (fun i => ⟨i.path, i.size, i.sha⟩))

-- sanity check
example : localRepoFiles
    (FsEntries.cons "a.txt" (FsTree.file 10)
      (FsEntries.cons ".env" (FsTree.file 5)
        (FsEntries.cons "node_modules"
          (FsTree.dir (FsEntries.cons "x.js" (FsTree.file 5) FsEntries.nil))
          FsEntries.nil))) = [⟨"a.txt", 10⟩] := by decide

/-! ## Content fetcher, local variant (lines 64 to 83 of `server.js`) -/

/-- Model of the local `/api/file-content` handler. `root` is `__dirname`;
`readFile` models `fs.readFileSync` (`none` means the read throws, whose
message is abstracted); `queryPath` is the `path` query parameter. -/
def fileContentLocal (root : String) (readFile : String → Option String)
    (queryPath : Option String) : HttpResponse :=
  match queryPath with
  | none => ⟨400, Body.error "Missing path"⟩
  | some fp =>
    if fp == "" then ⟨400, Body.error "Missing path"⟩
    else
      let fullPath := pathJoin root fp
      if !(strStartsWith fullPath root) then ⟨403, Body.error "Access denied"⟩
      else
        match readFile fullPath with
        | some content => ⟨200, Body.fileContent content fp⟩
        | none => ⟨500, Body.error "ENOENT"⟩

/-! ## Conversion proxy (lines 87 to 149 of `server.js`) -/

/-- The request body of `/api/convert`; absent fields are `none`. -/
structure ConvertBody where
  filePath : Option String
  code : Option String
  originalLang : Option String
deriving DecidableEq

/-- The instruction prompt built on lines 98 to 116. -/
def buildPrompt (b : ConvertBody) : String :=
  "You are a Lua code conversion expert. Convert the following "
    ++ jsOrDefault b.originalLang "code"
    ++ " into pure Lua 5.1 code.\n\nRules:\n- Output ONLY the converted Lua code. No explanations, no markdown, no comments unless they are necessary.\n- The converted code must be valid Lua 5.1 syntax.\n- Make it functional and preserve the original logic as much as possible.\n- If something cannot be directly translated to Lua, find the closest Lua equivalent.\n- Do NOT use any external libraries or modules that are not part of Lua 5.1 standard library.\n- If the file is a build config or tool-specific file (like Cargo.toml, package.json), convert its logic/purpose into a Lua script that achieves the same goal where possible.\n\nOriginal file: "
    ++ jsInterpOpt b.filePath
    ++ "\nOriginal language: "
    ++ jsOrDefault b.originalLang "unknown"
    ++ "\n\nCode to convert:\n```\n"
    ++ jsInterpOpt b.code
    ++ "\n```\n\nConverted Lua 5.1 code:"

/-- What the handler does before any network I/O: either answer at once or
issue the completion request with the built prompt. -/
inductive ConvertAction where
  | respond (r : HttpResponse)
  | callGroq (prompt : String)
deriving DecidableEq

/-- The early phase of `/api/convert` (lines 89 to 116): the credential
check, then the code check, then prompt construction. -/
def convertPhase1 (apiKey : Option String) (b : ConvertBody) : ConvertAction :=
  if !(jsTruthy apiKey) then
    ConvertAction.respond ⟨500, Body.error "GROQ_API_KEY is not set in environment variables"⟩
  else if !(jsTruthy b.code) then
    ConvertAction.respond ⟨400, Body.error "No code provided"⟩
  else
    ConvertAction.callGroq (buildPrompt b)

/-- The nested error body attached to a failed upstream response. -/
structure UpstreamErrObj where
  message : Option String
deriving DecidableEq

/-- The data of a failed upstream response. -/
structure UpstreamBody where
  error : Option UpstreamErrObj
  message : Option String
deriving DecidableEq

/-- A failed upstream HTTP response (axios `err.response`). -/
structure UpstreamResponse where
  status : Nat
  data : UpstreamBody
deriving DecidableEq

/-- An axios error: optional upstream response plus transport text. -/
structure AxiosErr where
  response : Option UpstreamResponse
  message : String
deriving DecidableEq

/-- The optional chain `err.response?.data?.error?.message`. -/
def errNested (e : AxiosErr) : Option String :=
  e.response.bind (fun r => r.data.error.bind (fun o => o.message))

/-- The optional chain `err.response?.data?.message`. -/
def errGeneric (e : AxiosErr) : Option String :=
  e.response.bind (fun r => r.data.message)

/-- The catch block of `/api/convert` (lines 145 to 148): status from
`err.response?.status || 500`, message from the truthiness-based chain
`err.response?.data?.error?.message || err.response?.data?.message || err.message`. -/
def convertCatch (e : AxiosErr) : HttpResponse :=
  ⟨(match e.response with
    | some r => if r.status == 0 then 500 else r.status
    | none => 500),
   Body.error (truthyOr (errNested e) (truthyOr (errGeneric e) e.message))⟩

/-- The whole `/api/convert` handler, parameterized by the outcome of the
completion call: `groq prompt` is `Except.ok content` when the first
completion choice has text `content`, and `Except.error e` when the call
throws. A response independent of `groq` involves no network I/O. -/
def convertHandler (apiKey : Option String) (b : ConvertBody)
    (groq : String → Except AxiosErr String) : HttpResponse :=
  match convertPhase1 apiKey b with
  | ConvertAction.respond r => r
  | ConvertAction.callGroq prompt =>
    match groq prompt with
    | Except.ok content => ⟨200, Body.converted (sanitizeLua content) b.filePath⟩
    | Except.error e => convertCatch e

/-! ## Health endpoint (lines 152 to 154 of `server.js`) -/

/-- The `/api/health` handler: status "ok" and `groqConfigured = !!GROQ_API_KEY`. -/
def healthHandler (apiKey : Option String) : HttpResponse :=
  ⟨200, Body.health "ok" (jsTruthy apiKey)⟩

/-! ## Helper lemmas -/

/-- A falsy first operand of the truthiness chain selects the fallback. -/
theorem truthyOr_of_falsy (a : Option String) (h : jsTruthy a = false) (b : String) :
    truthyOr a b = b := by
  cases a with
  | none => rfl
  | some s =>
    simp [jsTruthy] at h
    simp [truthyOr, h]

/-- A truthy first operand of the truthiness chain is selected. -/
theorem truthyOr_of_some (s : String) (h : s ≠ "") (b : String) :
    truthyOr (some s) b = s := by
  simp [truthyOr, h]

/-- Trimming is the identity on a list with non-whitespace first and last
characters. -/
theorem trim_of_ends (a z : Char) (l : List Char) (ha : jsWs a = false)
    (hz : jsWs z = false) : trimChars (a :: l ++ [z]) = a :: l ++ [z] := by
  simp [trimChars, List.dropWhile_cons, ha, hz, List.reverse_append]

/-- Appending a newline-led suffix cannot create a leading bare fence. -/
theorem bare_append_false (body : List Char) (h : matchesBareFence body = false)
    (rest : List Char) : matchesBareFence (body ++ '\n' :: rest) = false := by
  have hnl : ('\n'.toLower == '`') = false := by decide
  rcases body with _ | ⟨x, _ | ⟨y, _ | ⟨z, t⟩⟩⟩
  · simp [matchesBareFence, ciHasPrefix, hnl]
  · simp [matchesBareFence, ciHasPrefix, hnl]
  · simp [matchesBareFence, ciHasPrefix, hnl]
  · simp [matchesBareFence, ciHasPrefix] at h ⊢
    exact h

/-- A leading tagged fence needs a leading bare fence. -/
theorem tagged_of_bare (cs : List Char) (h : matchesBareFence cs = false) :
    matchesTaggedFence cs = false := by
  rcases cs with _ | ⟨x, _ | ⟨y, _ | ⟨z, t⟩⟩⟩
  · rfl
  · simp [matchesTaggedFence, ciHasPrefix]
  · simp [matchesTaggedFence, ciHasPrefix]
  · cases hx : x.toLower == '`' <;> cases hy : y.toLower == '`' <;>
      cases hz : z.toLower == '`' <;>
      simp_all [matchesBareFence, matchesTaggedFence, ciHasPrefix]

/-- Evaluation of the sanitizer on output wrapped in a dialect-tagged
leading fence and one trailing fence, when the interior does not itself
start with a fence marker: exactly the wrapper is removed. -/
theorem sanitize_wrapped_tagged (a b c : Char) (body : List Char)
    (ha : a.toLower = 'l') (hb : b.toLower = 'u') (hc : c.toLower = 'a')
    (hbody : trimChars body = body) (hsafe : matchesBareFence body = false) :
    sanitizeChars ('`' :: '`' :: '`' :: a :: b :: c :: '\n' :: (body ++ ['\n', '`', '`', '`'])) = body := by
  have h0 : trimChars ('`' :: '`' :: '`' :: a :: b :: c :: '\n' :: (body ++ ['\n', '`', '`', '`']))
      = '`' :: '`' :: '`' :: a :: b :: c :: '\n' :: (body ++ ['\n', '`', '`', '`']) := by
    have := trim_of_ends '`' '`'
      ('`' :: '`' :: a :: b :: c :: '\n' :: (body ++ ['\n', '`', '`'])) (by decide) (by decide)
    simpa using this
  have hm : matchesTaggedFence ('`' :: '`' :: '`' :: a :: b :: c :: '\n' :: (body ++ ['\n', '`', '`', '`']))
      = true := by
    have heq : matchesTaggedFence ('`' :: '`' :: '`' :: a :: b :: c :: '\n' :: (body ++ ['\n', '`', '`', '`']))
        = (a.toLower == 'l' && (b.toLower == 'u' && (c.toLower == 'a' && true))) := rfl
    rw [heq, ha, hb, hc]
    decide
  have h1 : stripLeadTagged ('`' :: '`' :: '`' :: a :: b :: c :: '\n' :: (body ++ ['\n', '`', '`', '`']))
      = body ++ ['\n', '`', '`', '`'] := by
    simp [stripLeadTagged, hm, dropOptNl]
  have h2 : stripLeadBare (body ++ ['\n', '`', '`', '`'])
      = body ++ ['\n', '`', '`', '`'] := by
    simp [stripLeadBare, bare_append_false body hsafe]
  have h3 : stripTrailFence (body ++ ['\n', '`', '`', '`']) = body := by
    have hrev : (body ++ ['\n', '`', '`', '`']).reverse
        = '`' :: '`' :: '`' :: '\n' :: body.reverse := by
      simp
    have hbare : matchesBareFence ('`' :: '`' :: '`' :: '\n' :: body.reverse) = true := rfl
    simp [stripTrailFence, hrev, hbare, dropOptNl]
  rw [sanitizeChars, h0, h1, h2, h3, hbody]

/-- Evaluation of the sanitizer on output wrapped in an untagged leading
fence and one trailing fence: exactly the wrapper is removed. -/
theorem sanitize_wrapped_bare (body : List Char) (hbody : trimChars body = body) :
    sanitizeChars ('`' :: '`' :: '`' :: '\n' :: (body ++ ['\n', '`', '`', '`'])) = body := by
  have h0 : trimChars ('`' :: '`' :: '`' :: '\n' :: (body ++ ['\n', '`', '`', '`']))
      = '`' :: '`' :: '`' :: '\n' :: (body ++ ['\n', '`', '`', '`']) := by
    have := trim_of_ends '`' '`'
      ('`' :: '`' :: '\n' :: (body ++ ['\n', '`', '`'])) (by decide) (by decide)
    simpa using this
  have h1 : stripLeadTagged ('`' :: '`' :: '`' :: '\n' :: (body ++ ['\n', '`', '`', '`']))
      = '`' :: '`' :: '`' :: '\n' :: (body ++ ['\n', '`', '`', '`']) := by
    have hm : matchesTaggedFence ('`' :: '`' :: '`' :: '\n' :: (body ++ ['\n', '`', '`', '`']))
        = false := rfl
    simp [stripLeadTagged, hm]
  have h2 : stripLeadBare ('`' :: '`' :: '`' :: '\n' :: (body ++ ['\n', '`', '`', '`']))
      = body ++ ['\n', '`', '`', '`'] := by
    have hm : matchesBareFence ('`' :: '`' :: '`' :: '\n' :: (body ++ ['\n', '`', '`', '`']))
        = true := rfl
    simp [stripLeadBare, hm, dropOptNl]
  have h3 : stripTrailFence (body ++ ['\n', '`', '`', '`']) = body := by
    have hrev : (body ++ ['\n', '`', '`', '`']).reverse
        = '`' :: '`' :: '`' :: '\n' :: body.reverse := by
      simp
    have hbare : matchesBareFence ('`' :: '`' :: '`' :: '\n' :: body.reverse) = true := rfl
    simp [stripTrailFence, hrev, hbare, dropOptNl]
  rw [sanitizeChars, h0, h1, h2, h3, hbody]

/-- The sanitizer is the identity on trimmed output with no enclosing
fence. -/
theorem sanitize_id_of_no_fence (body : List Char) (hbody : trimChars body = body)
    (h1 : matchesBareFence body = false) (h2 : matchesBareFence body.reverse = false) :
    sanitizeChars body = body := by
  have ht : matchesTaggedFence body = false := tagged_of_bare body h1
  simp [sanitizeChars, hbody, stripLeadTagged, stripLeadBare, stripTrailFence, ht, h1, h2]

/-! ## Claim theorems -/

/-- Read model for the path-escape exhibit: the only readable file lives at
`/srv/app2/secret.txt`, a sibling of the service root `/srv/app`. -/
def leakFs : String → Option String :=
  fun p => if p == "/srv/app2/secret.txt" then some "TOPSECRET" else none

/-- Claim C1 (exhibit of the code bug): the local content fetcher guards
with a plain string-prefix test, so with service root `/srv/app` the query
path `../app2/secret.txt` resolves to `/srv/app2/secret.txt`, which does
not lie within the root, yet passes the gate and the handler returns the
file content with status 200 instead of the mandated 403. The specific
sample `../../etc/passwd` is rejected with 403. -/
theorem local_gate_admits_sibling_escape :
    fileContentLocal "/srv/app" leakFs (some "../app2/secret.txt")
        = ⟨200, Body.fileContent "TOPSECRET" "../app2/secret.txt"⟩
      ∧ withinRoot "/srv/app" (pathJoin "/srv/app" "../app2/secret.txt") = false
      ∧ fileContentLocal "/srv/app" leakFs (some "../../etc/passwd")
        = ⟨403, Body.error "Access denied"⟩ := by
  refine ⟨by decide, by decide, by decide⟩

/-- Claim C2 (counterexample): an output wrapped in one tagged leading
fence and one trailing fence whose interior content begins with a bare
fence line. Removing exactly one fence pair would leave the interior fence
in place, yet the chained replacements also strip the interior marker, so
the returned code differs from the single-pair removal. -/
theorem fence_strip_interior_loss :
    sanitizeLua "```lua\n```\nprint(1)\n```" = "print(1)"
      ∧ sanitizeLua "```lua\n```\nprint(1)\n```" ≠ "```\nprint(1)" := by
  refine ⟨by decide, by decide⟩

/-- Claim C2 (amended): for trimmed output wrapped in exactly one leading
fence marker (bare, or tagged with the dialect name in any letter case)
and one trailing marker, the returned code is the output with exactly one
fence pair removed, provided that when the leading fence is tagged the
interior content does not itself begin with a fence marker (in that
residual case the code also strips the interior marker); trimmed output
with no enclosing fence is returned unchanged. -/
theorem fence_strip_single_pair :
    (∀ (tag body : List Char),
        (tag = [] ∨ tag.map Char.toLower = ['l', 'u', 'a']) →
        trimChars body = body →
        (tag = [] ∨ matchesBareFence body = false) →
        sanitizeLua (String.mk
            ('`' :: '`' :: '`' :: (tag ++ '\n' :: (body ++ ['\n', '`', '`', '`']))))
          = String.mk body)
      ∧ (∀ body : List Char, trimChars body = body →
          matchesBareFence body = false →
          matchesBareFence body.reverse = false →
          sanitizeLua (String.mk body) = String.mk body) := by
  constructor
  · intro tag body htag hbody hsafe
    rcases htag with rfl | hlua
    · exact congrArg String.mk (by simpa using sanitize_wrapped_bare body hbody)
    · have hlen : tag.length = 3 := by
        have := congrArg List.length hlua
        simpa using this
      rcases tag with _ | ⟨a, _ | ⟨b, _ | ⟨c, _ | ⟨d, t⟩⟩⟩⟩ <;> simp at hlen
      simp [List.map_cons] at hlua
      rcases hsafe with habs | hsafe
      · simp at habs
      · exact congrArg String.mk
          (by simpa using (sanitize_wrapped_tagged a b c body
            hlua.1 hlua.2.1 hlua.2.2 hbody hsafe))
  · intro body hbody h1 h2
    exact congrArg String.mk (sanitize_id_of_no_fence body hbody h1 h2)

/-- Claim C2 witness: the spec sample, a tagged fence around a one-line
program, is stripped to exactly the program. -/
theorem fence_strip_single_pair_witness :
    sanitizeLua (String.mk
        ('`' :: '`' :: '`' :: (['l', 'u', 'a'] ++ '\n' :: ("print(1)".data ++ ['\n', '`', '`', '`']))))
      = String.mk "print(1)".data :=
  fence_strip_single_pair.1 ['l', 'u', 'a'] "print(1)".data
    (Or.inr (by decide)) (by decide) (Or.inr (by decide))

/-- Claim C3 (counterexample): with the credential unconfigured and the
code field empty, the convert handler answers 500 (the credential error),
not the 400 bad-request the claim demands for every empty-code request. -/
theorem empty_code_after_key_check :
    convertHandler none ⟨none, some "", none⟩ (fun _ => Except.ok "x")
        = ⟨500, Body.error "GROQ_API_KEY is not set in environment variables"⟩
      ∧ (convertHandler none ⟨none, some "", none⟩ (fun _ => Except.ok "x")).status ≠ 400 := by
  refine ⟨by decide, by decide⟩

/-- Claim C3 (amended): whenever the credential is configured, a convert
request with empty or absent code is rejected with 400 before any prompt
construction and independently of the completion service: the early phase
answers without ever issuing a completion request. The credential check
precedes the empty-code check. -/
theorem empty_code_bad_request (apiKey : Option String) (b : ConvertBody)
    (hk : jsTruthy apiKey = true) (hc : jsTruthy b.code = false) :
    (∀ groq, convertHandler apiKey b groq = ⟨400, Body.error "No code provided"⟩)
      ∧ convertPhase1 apiKey b
        = ConvertAction.respond ⟨400, Body.error "No code provided"⟩ := by
  have h1 : convertPhase1 apiKey b
      = ConvertAction.respond ⟨400, Body.error "No code provided"⟩ := by
    simp [convertPhase1, hk, hc]
  exact ⟨fun groq => by simp [convertHandler, h1], h1⟩

/-- Claim C3 witness: concrete run of the amended theorem. -/
theorem empty_code_bad_request_witness :
    convertHandler (some "key") ⟨some "a.rs", some "", none⟩ (fun _ => Except.ok "x")
      = ⟨400, Body.error "No code provided"⟩ :=
  (empty_code_bad_request (some "key") ⟨some "a.rs", some "", none⟩
    (by decide) (by decide)).1 (fun _ => Except.ok "x")

/-- Claim C4: every entry produced by the local or the remote enumerator
has size strictly below 500000; a 500000-byte file is dropped while an
otherwise eligible 499999-byte file is kept, in both variants. -/
theorem size_ceiling :
    (∀ (t : FsEntries) (e : FileEntry), e ∈ localRepoFiles t → e.size < 500000)
      ∧ (∀ (tr : List GitTreeItem) (e : RemoteFileEntry),
          e ∈ remoteRepoFiles tr → e.size < 500000)
      ∧ localRepoFiles (FsEntries.cons "big.bin" (FsTree.file 500000)
          (FsEntries.cons "ok.bin" (FsTree.file 499999) FsEntries.nil))
        = [⟨"ok.bin", 499999⟩]
      ∧ remoteRepoFiles [⟨"big.bin", 500000, "file", "s1"⟩, ⟨"ok.bin", 499999, "file", "s2"⟩]
        = [⟨"ok.bin", 499999, "s2"⟩] := by
  refine ⟨?_, ?_, by decide, by decide⟩
  · intro t e he
    simp [localRepoFiles, List.mem_filter] at he
    exact he.2
  · intro tr e he
    simp [remoteRepoFiles, List.mem_map, List.mem_filter] at he
    obtain ⟨i, ⟨_, hsz, _⟩, rfl⟩ := he
    exact hsz

/-- Claim C4 witness: the size bound at a concrete enumeration. -/
theorem size_ceiling_witness : (⟨"ok.bin", 499999⟩ : FileEntry).size < 500000 :=
  size_ceiling.1 (FsEntries.cons "ok.bin" (FsTree.file 499999) FsEntries.nil)
    ⟨"ok.bin", 499999⟩ (by decide)

/-- Claim C5: with the completion-service credential unconfigured (absent
or empty), convert answers the 500 unconfigured error whatever the
completion service would return, so no completion request is issued: the
early phase never reaches the `callGroq` action. -/
theorem missing_credential_no_call (apiKey : Option String) (b : ConvertBody)
    (hk : jsTruthy apiKey = false) :
    (∀ groq, convertHandler apiKey b groq
        = ⟨500, Body.error "GROQ_API_KEY is not set in environment variables"⟩)
      ∧ (∀ p, convertPhase1 apiKey b ≠ ConvertAction.callGroq p) := by
  have h1 : convertPhase1 apiKey b
      = ConvertAction.respond ⟨500, Body.error "GROQ_API_KEY is not set in environment variables"⟩ := by
    simp [convertPhase1, hk]
  refine ⟨fun groq => by simp [convertHandler, h1], fun p hcontra => ?_⟩
  rw [h1] at hcontra
  exact ConvertAction.noConfusion hcontra

/-- Claim C5 witness: concrete run with the credential absent. -/
theorem missing_credential_no_call_witness :
    convertHandler none ⟨some "a.rs", some "fn f()", none⟩ (fun _ => Except.ok "x")
      = ⟨500, Body.error "GROQ_API_KEY is not set in environment variables"⟩ :=
  (missing_credential_no_call none ⟨some "a.rs", some "fn f()", none⟩ (by decide)).1
    (fun _ => Except.ok "x")

/-- Claim C8: the health endpoint always answers 200 with status "ok" and a
boolean that is true exactly when the credential is set and non-empty; for
any two non-empty credential values the whole response is identical, so the
response depends on the credential only through that boolean and never
contains its value. -/
theorem health_no_leak :
    (∀ k, (healthHandler k).status = 200
        ∧ ∃ b, (healthHandler k).body = Body.health "ok" b
            ∧ (b = true ↔ ∃ s, k = some s ∧ s ≠ ""))
      ∧ (∀ k1 k2 : String, k1 ≠ "" → k2 ≠ "" →
          healthHandler (some k1) = healthHandler (some k2)) := by
  constructor
  · intro k
    refine ⟨rfl, jsTruthy k, rfl, ?_⟩
    cases k with
    | none => simp [jsTruthy]
    | some s => simp [jsTruthy]
  · intro k1 k2 h1 h2
    simp [healthHandler, jsTruthy, h1, h2]

/-- Claim C8 witness: two distinct non-empty credentials give the same
health response. -/
theorem health_no_leak_witness :
    healthHandler (some "alpha") = healthHandler (some "beta") :=
  health_no_leak.2 "alpha" "beta" (by decide) (by decide)

/-- Claim C9: the local content fetcher applies none of the enumerator
eligibility rules: for every query path (hidden names, excluded-directory
components and arbitrary sizes included) whose resolution passes the
containment gate and denotes a readable file, the content is returned with
status 200. -/
theorem fetcher_ignores_eligibility (root : String) (readFile : String → Option String)
    (fp content : String) (h1 : fp ≠ "")
    (h2 : strStartsWith (pathJoin root fp) root = true)
    (h3 : readFile (pathJoin root fp) = some content) :
    fileContentLocal root readFile (some fp) = ⟨200, Body.fileContent content fp⟩ := by
  simp [fileContentLocal, h1, h2, h3]

/-- Claim C9 witness: a hidden file inside an excluded directory, which the
enumerator would never list, is served by the content fetcher. -/
theorem fetcher_ignores_eligibility_witness :
    fileContentLocal "/srv/app"
        (fun p => if p == "/srv/app/node_modules/.env" then some "SECRET=1" else none)
        (some "node_modules/.env")
      = ⟨200, Body.fileContent "SECRET=1" "node_modules/.env"⟩ :=
  fetcher_ignores_eligibility "/srv/app"
    (fun p => if p == "/srv/app/node_modules/.env" then some "SECRET=1" else none)
    "node_modules/.env" "SECRET=1" (by decide) (by decide) (by decide)

/-- Claim C7: on a failed completion call, the status is the upstream
status when a response is present (HTTP statuses are nonzero) and 500
otherwise, and the message is picked by strict preference: the nested
error message of the upstream body, else its generic message, else the raw
transport text (a present field being a non-empty string). -/
theorem convert_error_mapping (e : AxiosErr) :
    (∀ r, e.response = some r → r.status ≠ 0 → (convertCatch e).status = r.status)
      ∧ (e.response = none → (convertCatch e).status = 500)
      ∧ (∀ s, errNested e = some s → s ≠ "" → (convertCatch e).body = Body.error s)
      ∧ (jsTruthy (errNested e) = false → ∀ s, errGeneric e = some s → s ≠ "" →
          (convertCatch e).body = Body.error s)
      ∧ (jsTruthy (errNested e) = false → jsTruthy (errGeneric e) = false →
          (convertCatch e).body = Body.error e.message) := by
  refine ⟨?_, ?_, ?_, ?_, ?_⟩
  · intro r hr h0
    simp [convertCatch, hr, h0]
  · intro hr
    simp [convertCatch, hr]
  · intro s hs hne
    simp [convertCatch, hs, truthyOr_of_some s hne]
  · intro hf s hs hne
    simp [convertCatch, truthyOr_of_falsy _ hf, hs, truthyOr_of_some s hne]
  · intro hf hg
    simp [convertCatch, truthyOr_of_falsy _ hf, truthyOr_of_falsy _ hg]

/-- A concrete upstream failure: a 429 whose body carries both message
fields, plus a transport text. -/
def errW : AxiosErr :=
  ⟨some ⟨429, ⟨some ⟨some "Rate limit reached"⟩, some "Too Many Requests"⟩⟩,
   "transport failure"⟩

/-- Claim C7 witness: the nested message and the upstream status win. -/
theorem convert_error_mapping_witness :
    (convertCatch errW).status = 429
      ∧ (convertCatch errW).body = Body.error "Rate limit reached" :=
  ⟨(convert_error_mapping errW).1
      ⟨429, ⟨some ⟨some "Rate limit reached"⟩, some "Too Many Requests"⟩⟩ rfl (by decide),
   (convert_error_mapping errW).2.2.1 "Rate limit reached" rfl (by decide)⟩

/-- Every file entry emitted by the walk decomposes along the traversal:
its path is the fold of the visited directory names (none excluded) ending
in a file name that is neither hidden nor in the excluded file set. -/
theorem getAllFiles_decomp (pre : String) (es : FsEntries) (e : FileEntry)
    (he : e ∈ getAllFiles pre es) :
    ∃ dirs name, (∀ d ∈ dirs, d ∉ skipDirs)
      ∧ strStartsWith name "." = false ∧ name ∉ skipFiles
      ∧ e.path = List.foldl childPath pre (dirs ++ [name]) := by
  induction pre, es using getAllFiles.induct with
  | case1 pre =>
    simp [getAllFiles] at he
  | case2 pre name ch rest ih1 ih2 =>
    rw [getAllFiles] at he
    rcases List.mem_append.mp he with hl | hr
    · simp at hl
      obtain ⟨dirs, nm, hd, hn1, hn2, hpath⟩ := ih1 hl.2
      refine ⟨name :: dirs, nm, ?_, hn1, hn2, by simpa using hpath⟩
      intro d hdmem
      rcases List.mem_cons.mp hdmem with rfl | hdm
      · exact hl.1
      · exact hd d hdm
    · exact ih2 hr
  | case3 pre name sz rest ih =>
    rw [getAllFiles] at he
    rcases List.mem_append.mp he with hl | hr
    · simp at hl
      obtain ⟨⟨hn1, hn2⟩, rfl⟩ := hl
      exact ⟨[], name, by simp, hn1, hn2, by simp⟩
    · exact ih hr

/-- The sample root of the end-to-end scenario: `a.txt` (10 bytes), `.env`
(5 bytes) and `node_modules/x.js` (5 bytes). -/
def demoRootFs : FsEntries :=
  FsEntries.cons "a.txt" (FsTree.file 10)
    (FsEntries.cons ".env" (FsTree.file 5)
      (FsEntries.cons "node_modules"
        (FsTree.dir (FsEntries.cons "x.js" (FsTree.file 5) FsEntries.nil))
        FsEntries.nil))

/-- Claim C6: the enumerator never emits an entry below an excluded
directory, a hidden file, or an excluded file name (every emitted path
decomposes along non-excluded directory names into an eligible file name);
on the sample root the output is exactly `a.txt`. -/
theorem enumerator_exclusions :
    (∀ (t : FsEntries) (e : FileEntry), e ∈ getAllFiles "" t →
        ∃ dirs name, (∀ d ∈ dirs, d ∉ skipDirs)
          ∧ strStartsWith name "." = false ∧ name ∉ skipFiles
          ∧ e.path = List.foldl childPath "" (dirs ++ [name]))
      ∧ localRepoFiles demoRootFs = [⟨"a.txt", 10⟩] :=
  ⟨fun t e he => getAllFiles_decomp "" t e he, by decide⟩

/-- Claim C6 witness: the decomposition at the sample entry. -/
theorem enumerator_exclusions_witness :
    ∃ dirs name, (∀ d ∈ dirs, d ∉ skipDirs)
      ∧ strStartsWith name "." = false ∧ name ∉ skipFiles
      ∧ (⟨"a.txt", 10⟩ : FileEntry).path = List.foldl childPath "" (dirs ++ [name]) :=
  enumerator_exclusions.1 demoRootFs ⟨"a.txt", 10⟩ (by decide)

/-- Claim C10: convert never validates the file path: any request with
truthy code and a configured credential proceeds to the completion call,
and on success the response carries the request file path verbatim
(including an absent one, since the theorem holds for every optional
value of the field). -/
theorem filepath_passthrough (apiKey : Option String) (b : ConvertBody)
    (hk : jsTruthy apiKey = true) (hc : jsTruthy b.code = true) :
    (∃ p, convertPhase1 apiKey b = ConvertAction.callGroq p)
      ∧ (∀ content, convertHandler apiKey b (fun _ => Except.ok content)
          = ⟨200, Body.converted (sanitizeLua content) b.filePath⟩) := by
  have h1 : convertPhase1 apiKey b = ConvertAction.callGroq (buildPrompt b) := by
    simp [convertPhase1, hk, hc]
  exact ⟨⟨buildPrompt b, h1⟩, fun content => by simp [convertHandler, h1]⟩

/-- Claim C10 witness: a request with absent file path is accepted and the
response file path is likewise absent. -/
theorem filepath_passthrough_witness :
    convertHandler (some "k") ⟨none, some "x=1", none⟩ (fun _ => Except.ok "print(1)")
      = ⟨200, Body.converted (sanitizeLua "print(1)") none⟩ :=
  (filepath_passthrough (some "k") ⟨none, some "x=1", none⟩ (by decide) (by decide)).2
    "print(1)"

end LuaPure
